import Mathlib

/-!
Verification of the rule-based bank-statement transaction classifier from
`clean_bank_statements.py`.

The development shallowly embeds the classifier: the ordered rule table, the
text normalizer, the label-templating helper and the vectorized first-match
classification loop.  Regular-expression patterns written in the source are
transcribed into an explicit abstract syntax (`RE`) and evaluated by a small
backtracking matcher (`mtch`) that reproduces the leftmost search, the
greedy/lazy preference order and the single-capture-group semantics of the
host regex library on the alphabet used by the rules.  Text is represented as
`List Char`; Unicode primitives used by the source (NFKD decomposition,
combining-mark detection, case folding) are modelled by explicit tables
covering the Spanish alphabet the rules work over.
-/

/-- Shorthand: the character list of a string literal. -/
def S (s : String) : List Char := s.data

/-- Whitespace, as matched by the host's `\s`, `str.strip` and `str.split`
on the ASCII alphabet used by the rule table. -/
def isSpaceCh (c : Char) : Bool :=
  c = ' ' || c = '\t' || c = '\n' || c = '\x0d' || c = '\x0b' || c = '\x0c'

/-- ASCII decimal digit, as matched by `\d` on the inputs in scope. -/
def isDigitCh (c : Char) : Bool :=
  '0' ≤ c && c ≤ '9'

/-- Case folding as performed by `str.lower` and the case-insensitive match
flag, on ASCII plus the accented Spanish letters that occur in the rules. -/
def lowerCh (c : Char) : Char :=
  if 'A' ≤ c && c ≤ 'Z' then Char.ofNat (c.toNat + 32)
  else if c = 'Á' then 'á'
  else if c = 'É' then 'é'
  else if c = 'Í' then 'í'
  else if c = 'Ó' then 'ó'
  else if c = 'Ú' then 'ú'
  else if c = 'Ñ' then 'ñ'
  else if c = 'Ü' then 'ü'
  else c

/-- Word character, as matched by `\w` (used for `\b` boundaries), on ASCII
plus the accented Spanish letters in scope. -/
def isWordCh (c : Char) : Bool :=
  ('a' ≤ c && c ≤ 'z') || ('A' ≤ c && c ≤ 'Z') || isDigitCh c || c = '_' ||
  c = 'á' || c = 'é' || c = 'í' || c = 'ó' || c = 'ú' || c = 'ñ' || c = 'ü' ||
  c = 'Á' || c = 'É' || c = 'Í' || c = 'Ó' || c = 'Ú' || c = 'Ñ' || c = 'Ü'

/-- The combining acute accent U+0301. -/
def acuteMark : Char := Char.ofNat 769

/-- The combining tilde U+0303. -/
def tildeMark : Char := Char.ofNat 771

/-- The combining diaeresis U+0308. -/
def diaeresisMark : Char := Char.ofNat 776

/-- NFKD decomposition (`unicodedata.normalize("NFKD", ·)`), modelled
per-character on the accented Spanish letters the classifier meets; every
other character decomposes to itself. -/
def nfkdChar (c : Char) : List Char :=
  if c = 'á' then ['a', acuteMark]
  else if c = 'é' then ['e', acuteMark]
  else if c = 'í' then ['i', acuteMark]
  else if c = 'ó' then ['o', acuteMark]
  else if c = 'ú' then ['u', acuteMark]
  else if c = 'Á' then ['A', acuteMark]
  else if c = 'É' then ['E', acuteMark]
  else if c = 'Í' then ['I', acuteMark]
  else if c = 'Ó' then ['O', acuteMark]
  else if c = 'Ú' then ['U', acuteMark]
  else if c = 'ñ' then ['n', tildeMark]
  else if c = 'Ñ' then ['N', tildeMark]
  else if c = 'ü' then ['u', diaeresisMark]
  else if c = 'Ü' then ['U', diaeresisMark]
  else [c]

/-- Combining mark detection (`unicodedata.combining(ch) != 0`), modelled as
membership in the combining-diacritics block U+0300–U+036F. -/
def isCombining (c : Char) : Bool :=
  decide (768 ≤ c.toNat ∧ c.toNat ≤ 879)

/-- `str.strip()`: drop whitespace from both ends. -/
def strip (s : List Char) : List Char :=
  ((s.dropWhile isSpaceCh).reverse.dropWhile isSpaceCh).reverse

/-- Worker for `collapseWs`; the flag records whether the previous character
was whitespace (in which case further whitespace is absorbed). -/
def collapseWsAux : Bool → List Char → List Char
  | _, [] => []
  | prev, c :: cs =>
    if isSpaceCh c then
      if prev then collapseWsAux true cs else ' ' :: collapseWsAux true cs
    else c :: collapseWsAux false cs

/-- `re.sub(r"\s+", " ", s)`: replace every maximal whitespace run by a
single space. -/
def collapseWs (s : List Char) : List Char := collapseWsAux false s

/-- Worker for `subPipe`.  The flag records whether we are directly behind a
replaced pipe (where following whitespace was consumed by the match); `pend`
holds whitespace read but not yet committed, which is dropped if a pipe
follows it. -/
def subPipeAux : Bool → List Char → List Char → List Char
  | _, pend, [] => pend
  | afterPipe, pend, c :: cs =>
    if c = '|' then ' ' :: subPipeAux true [] cs
    else if isSpaceCh c then
      if afterPipe then subPipeAux true [] cs
      else subPipeAux false (pend ++ [c]) cs
    else pend ++ c :: subPipeAux false [] cs

/-- `re.sub(r"\s*\|\s*", " ", s)`: each pipe together with the whitespace
around it becomes a single space. -/
def subPipe (s : List Char) : List Char := subPipeAux false [] s

/-- Is `needle` a contiguous sublist of the argument? (`"****" in label`). -/
def isSubAux (needle : List Char) : List Char → Bool
  | [] => needle.isPrefixOf []
  | c :: cs => needle.isPrefixOf (c :: cs) || isSubAux needle cs

/-- Substring containment test, `needle in hay` on strings. -/
def isSub (needle hay : List Char) : Bool := isSubAux needle hay

/-- Worker for `replaceSub`, with fuel bounding the number of emitted
steps. -/
def replaceSubAux (needle repl : List Char) : Nat → List Char → List Char
  | 0, s => s
  | Nat.succ n, s =>
    if needle.isPrefixOf s then repl ++ replaceSubAux needle repl n (s.drop needle.length)
    else
      match s with
      | [] => []
      | c :: cs => c :: replaceSubAux needle repl n cs

/-- `str.replace(needle, repl)`: replace every non-overlapping occurrence,
left to right.  The classifier only calls this with the non-empty needle
`"****"`; an empty needle returns the string unchanged. -/
def replaceSub (needle repl s : List Char) : List Char :=
  if needle = [] then s else replaceSubAux needle repl (s.length + 1) s

/-! ## A small backtracking regex engine

The abstract syntax covers exactly the constructs used by the rule table:
literal characters, the classes `\s`, `\d`, `[oó]`, `[:\s]`, `[\d,]`, the
dot (with and without `(?s)`), concatenation, greedy and lazy `*`/`?`
(`+` and bounded repetition are desugared), one capturing group, the `^`
anchor and the `\b` word boundary.  Matching is case-insensitive
throughout, mirroring the `re.IGNORECASE` flag every rule is compiled
with. -/

/-- One alternative inside a character class. -/
inductive CItem where
  | chr (c : Char)
  | digit
  | space
deriving DecidableEq

/-- Regex abstract syntax. -/
inductive RE where
  | eps
  | lit (c : Char)
  | cls (items : List CItem)
  | dot (dotAll : Bool)
  | seq (a b : RE)
  | star (lz : Bool) (a : RE)
  | opt (lz : Bool) (a : RE)
  | grp (a : RE)
  | bol
  | wb
deriving DecidableEq

/-- Does the class item accept the character (case-insensitively)? -/
def itemMatch (c : Char) : CItem → Bool
  | .chr d => lowerCh c = lowerCh d
  | .digit => isDigitCh c
  | .space => isSpaceCh c

/-- Syntactic size of a pattern, used to compute a sufficient fuel bound. -/
def sizeRE : RE → Nat
  | .eps => 1
  | .lit _ => 1
  | .cls _ => 1
  | .dot _ => 1
  | .seq a b => sizeRE a + sizeRE b + 1
  | .star _ a => sizeRE a + 1
  | .opt _ a => sizeRE a + 1
  | .grp a => sizeRE a + 1
  | .bol => 1
  | .wb => 1

/-- Number of capturing groups in a pattern (`pattern.groups`). -/
def countGroups : RE → Nat
  | .seq a b => countGroups a + countGroups b
  | .star _ a => countGroups a
  | .opt _ a => countGroups a
  | .grp a => countGroups a + 1
  | _ => 0

/-- Is the character at index `i` a word character? (False past the ends.) -/
def wordAt (s : List Char) (i : Nat) : Bool :=
  match s.get? i with
  | some c => isWordCh c
  | none => false

/-- Word-boundary test at position `i`, as for `\b`. -/
def atWb (s : List Char) (i : Nat) : Bool :=
  (if i = 0 then false else wordAt s (i - 1)) != wordAt s i

/-- Backtracking matcher in continuation-passing style.  `i` is the current
position in `s`, `cp` the span captured so far by the (single) group, and
`k` the continuation receiving the position and capture after the current
pattern.  Alternatives are tried in the host library's preference order:
greedy operators try the longer continuation first, lazy ones the shorter,
and a `star` iteration must consume input (the source patterns never repeat
a nullable body).  The fuel argument bounds the recursion depth and is
always instantiated large enough to be irrelevant (see `fuelFor`). -/
def mtch {α : Type} (s : List Char) : Nat → RE → Nat → Option (Nat × Nat) →
    (Nat → Option (Nat × Nat) → Option α) → Option α
  | 0, _, _, _, _ => none
  | Nat.succ f, re, i, cp, k =>
    match re with
    | .eps => k i cp
    | .lit c =>
      match s.get? i with
      | some d => if lowerCh d = lowerCh c then k (i + 1) cp else none
      | none => none
    | .cls items =>
      match s.get? i with
      | some d => if items.any (itemMatch d) then k (i + 1) cp else none
      | none => none
    | .dot da =>
      match s.get? i with
      | some d => if da || d != '\n' then k (i + 1) cp else none
      | none => none
    | .seq a b => mtch s f a i cp fun j cp2 => mtch s f b j cp2 k
    | .star lz a =>
      if lz then
        match k i cp with
        | some r => some r
        | none =>
          mtch s f a i cp fun j cp2 =>
            if i < j then mtch s f (.star lz a) j cp2 k else none
      else
        match (mtch s f a i cp fun j cp2 =>
            if i < j then mtch s f (.star lz a) j cp2 k else none) with
        | some r => some r
        | none => k i cp
    | .opt lz a =>
      if lz then
        match k i cp with
        | some r => some r
        | none => mtch s f a i cp k
      else
        match mtch s f a i cp k with
        | some r => some r
        | none => k i cp
    | .grp a => mtch s f a i cp fun j _ => k j (some (i, j))
    | .bol => if i = 0 then k i cp else none
    | .wb => if atWb s i then k i cp else none

/-- Fuel sufficient for any match attempt of `re` inside `s`: the recursion
depth of `mtch` is bounded by the pattern size between consumed characters,
and at most `s.length` characters are consumed. -/
def fuelFor (s : List Char) (re : RE) : Nat :=
  (s.length + 2) * (sizeRE re + 2)

/-- Leftmost search: try a match at every position from left to right
(`re.search`).  Returns the start position paired with the continuation's
result for the preferred match. -/
def reSearchAux {α : Type} (s : List Char) (re : RE)
    (k : Nat → Option (Nat × Nat) → Option α) : Nat → Nat → Option (Nat × α)
  | 0, _ => none
  | Nat.succ n, i =>
    match mtch s (fuelFor s re) re i none k with
    | some r => some (i, r)
    | none => reSearchAux s re k n (i + 1)

/-- `re.search(pattern, s)` driver. -/
def reSearch {α : Type} (re : RE) (s : List Char)
    (k : Nat → Option (Nat × Nat) → Option α) : Option (Nat × α) :=
  reSearchAux s re k (s.length + 1) 0

/-- Containment test, `pattern.search(s) is not None`
(`Series.str.contains`). -/
def reContains (re : RE) (s : List Char) : Bool :=
  (reSearch re s fun _ _ => some ()).isSome

/-- Group extraction, `Series.str.extract`: the text captured by group 1 of
the leftmost match, or `none` when there is no match (the NaN of the
source).  A successful empty capture yields `some []`, distinct from
`none`. -/
def reExtract (re : RE) (s : List Char) : Option (List Char) :=
  match reSearch re s fun _ cp => some cp with
  | none => none
  | some (_, none) => none
  | some (_, some (a, b)) => some ((s.drop a).take (b - a))

/-- Start and end of the leftmost (preferred) match, for substitution. -/
def reFindSpan (re : RE) (s : List Char) : Option (Nat × Nat) :=
  match reSearch re s fun j _ => some j with
  | none => none
  | some (a, e) => some (a, e)

/-- Worker for `replaceAll`: repeatedly take the leftmost match of `re`,
emit the prefix and the replacement, and continue after the match.  The
source only substitutes patterns that cannot match the empty string and
contain no anchor, so restarting the search on the remaining suffix agrees
with the host's `re.sub`. -/
def replaceAllAux (re : RE) (repl : List Char) : Nat → List Char → List Char
  | 0, s => s
  | Nat.succ n, s =>
    match reFindSpan re s with
    | none => s
    | some (a, b) =>
      if a < b then s.take a ++ repl ++ replaceAllAux re repl n (s.drop b)
      else s.take a ++ repl ++ (s.drop a).take 1 ++ replaceAllAux re repl n (s.drop (a + 1))

/-- `re.sub(re, repl, s)` for the flag-free substitutions of the source. -/
def replaceAll (re : RE) (repl : List Char) (s : List Char) : List Char :=
  replaceAllAux re repl (s.length + 1) s

/-! ## Pattern helpers

Smart constructors mirroring the regex syntax of the source patterns. -/

/-- Sequence of literal characters (a verbatim fragment of a pattern). -/
def litsAux : List Char → RE
  | [] => .eps
  | c :: cs => .seq (.lit c) (litsAux cs)

/-- Sequence of literal characters from a string literal. -/
def lits (s : String) : RE := litsAux s.data

/-- Concatenation of a list of patterns. -/
def seqs : List RE → RE
  | [] => .eps
  | [r] => r
  | r :: rs => .seq r (seqs rs)

/-- `\s` -/
def wsc : RE := .cls [.space]

/-- `\s*` -/
def wsS : RE := .star false wsc

/-- `\s+` -/
def wsP : RE := .seq wsc (.star false wsc)

/-- `\d` -/
def dgt : RE := .cls [.digit]

/-- `r{n}`: exactly `n` copies of `r`. -/
def rep : Nat → RE → RE
  | 0, _ => .eps
  | Nat.succ n, r => .seq r (rep n r)

/-- Greedy `r?`. -/
def optG (r : RE) : RE := .opt false r

/-- Greedy `r*`. -/
def starGr (r : RE) : RE := .star false r

/-- Lazy `r*?`. -/
def starLz (r : RE) : RE := .star true r

/-- Greedy `r+`. -/
def plusG (r : RE) : RE := .seq r (starGr r)

/-- Lazy `r+?`. -/
def plusL (r : RE) : RE := .seq r (starLz r)

/-- `.` outside `(?s)` mode. -/
def dotN : RE := .dot false

/-- `.` under the `(?s)` flag. -/
def dotA : RE := .dot true

/-- `\d{1,3}` (greedy). -/
def d13 : RE := .seq dgt (optG (.seq dgt (optG dgt)))

/-- `\(?[\d,]+\.\d{2}\)?` — the amount fragment shared by several rules. -/
def amountRE : RE :=
  seqs [optG (.lit '('), plusG (.cls [.digit, .chr ',']), .lit '.', rep 2 dgt, optG (.lit ')')]

/-- `[:\s]` -/
def colonOrWs : RE := .cls [.chr ':', .space]

/-! ## The rule table

Each entry transcribes one triple of `raw_rules`; the original pattern text
is quoted in the comment above it.  All patterns are compiled with
`re.IGNORECASE | re.UNICODE`, which the matcher applies globally. -/

/-- A compiled rule: pattern, label template, debug tag. -/
structure Rule where
  re : RE
  label : List Char
  debug : List Char
deriving DecidableEq

/-- `\(\d{1,3}(?:,\d{3})*\.\d{2}\)\s*mxn\s*Nro\.?\s*Ref/Docto\.?\s*#\s*\d{7}` -/
def rule01 : Rule :=
  { re := seqs [.lit '(', d13, starGr (.seq (.lit ',') (rep 3 dgt)), .lit '.', rep 2 dgt,
      .lit ')', wsS, lits "mxn", wsS, lits "Nro", optG (.lit '.'), wsS, lits "Ref/Docto",
      optG (.lit '.'), wsS, .lit '#', wsS, rep 7 dgt]
    label := S "RAW_MATCH", debug := S "RAW_PATTERN_AMOUNT_REF_7" }

/-- `TRASPASO\s+DE\s+SALDOS\s` -/
def rule02 : Rule :=
  { re := seqs [lits "TRASPASO", wsP, lits "DE", wsP, lits "SALDOS", wsc]
    label := S "TRASPASO DE SALDOS", debug := S "TRASPASO DE SALDOS" }

/-- `\scuota\s+obrero\s+patronal\s` -/
def rule03 : Rule :=
  { re := seqs [wsc, lits "cuota", wsP, lits "obrero", wsP, lits "patronal", wsc]
    label := S "CUOTA OBRERO PATRONAL", debug := S "CUOTA OBRERO PATRONAL" }

/-- `mxn\s+numero\s+de\s+cheque.*\|\s*(\d{4})\s*\|` -/
def rule04 : Rule :=
  { re := seqs [lits "mxn", wsP, lits "numero", wsP, lits "de", wsP, lits "cheque",
      starGr dotN, .lit '|', wsS, .grp (rep 4 dgt), wsS, .lit '|']
    label := S "CHEQUE ****", debug := S "mxn numero de cheque con dígitos" }

/-- `(?s)spei\s+enviado[:\s]*\|.*?beneficiario:\s*(.*?)\s*\(dato\s+no\s+verificado` -/
def rule05 : Rule :=
  { re := seqs [lits "spei", wsP, lits "enviado", starGr colonOrWs, .lit '|', starLz dotA,
      lits "beneficiario:", wsS, .grp (starLz dotA), wsS, .lit '(', lits "dato", wsP,
      lits "no", wsP, lits "verificado"]
    label := S "SPEI Enviado", debug := S "SPEI Enviado con Beneficiario" }

/-- `(?s)spei\s+recibido[:\s]*\|.*?ordenante:\s*(.*?)\s*cuenta\s+ordenante` -/
def rule06 : Rule :=
  { re := seqs [lits "spei", wsP, lits "recibido", starGr colonOrWs, .lit '|', starLz dotA,
      lits "ordenante:", wsS, .grp (starLz dotA), wsS, lits "cuenta", wsP, lits "ordenante"]
    label := S "SPEI Recibido", debug := S "SPEI Recibido con Ordenante" }

/-- `(?s)devoluci[oó]n\s+de\s+spei[:\s]*\|.*?ordenante:\s*(.+?)\s*cuenta\s+ordenante` -/
def rule07 : Rule :=
  { re := seqs [lits "devoluci", .cls [.chr 'o', .chr 'ó'], lits "n", wsP, lits "de", wsP,
      lits "spei", starGr colonOrWs, .lit '|', starLz dotA, lits "ordenante:", wsS,
      .grp (plusL dotA), wsS, lits "cuenta", wsP, lits "ordenante"]
    label := S "Devolución de SPEI", debug := S "Devolución de SPEI con Ordenante" }

/-- `(?s)retiro\s+de\s+recursos.*?beneficiario\s*(?:\|\s*)?(.*?)\s*\|\s*hora:` -/
def rule08 : Rule :=
  { re := seqs [lits "retiro", wsP, lits "de", wsP, lits "recursos", starLz dotA,
      lits "beneficiario", wsS, optG (.seq (.lit '|') wsS), .grp (starLz dotA), wsS,
      .lit '|', wsS, lits "hora:"]
    label := S "Retiro de Recursos", debug := S "Retiro de Recursos con Beneficiario" }

/-- `(?s)entrega\s+de\s+recursos\s+por.*?ordenante\s*\|?\s*(.+?)\s*\|\s*hora:` -/
def rule09 : Rule :=
  { re := seqs [lits "entrega", wsP, lits "de", wsP, lits "recursos", wsP, lits "por",
      starLz dotA, lits "ordenante", wsS, optG (.lit '|'), wsS, .grp (plusL dotA), wsS,
      .lit '|', wsS, lits "hora:"]
    label := S "Entrega de Recursos", debug := S "Entrega de Recursos con Ordenante" }

/-- `^\s*comision\s*\|\s*dispersion\s+grupo\b.*por\s*\(?[\d,]+\.\d{2}\)?\s*mxn.*recibo\s*#\s*\d+` -/
def rule10 : Rule :=
  { re := seqs [.bol, wsS, lits "comision", wsS, .lit '|', wsS, lits "dispersion", wsP,
      lits "grupo", .wb, starGr dotN, lits "por", wsS, amountRE, wsS, lits "mxn",
      starGr dotN, lits "recibo", wsS, .lit '#', wsS, plusG dgt]
    label := S "Comisión", debug := S "Comisión | Dispersion Grupo con monto y Recibo" }

/-- `^\s*comision\s*\|\s*numero\s+de\s+referencia\b.*` -/
def rule11 : Rule :=
  { re := seqs [.bol, wsS, lits "comision", wsS, .lit '|', wsS, lits "numero", wsP,
      lits "de", wsP, lits "referencia", .wb, starGr dotN]
    label := S "Comisión", debug := S "Comisión | Número de Referencia (exacto)" }

/-- `^\s*comisi[oó]n\s+por\b` -/
def rule12 : Rule :=
  { re := seqs [.bol, wsS, lits "comisi", .cls [.chr 'o', .chr 'ó'], lits "n", wsP,
      lits "por", .wb]
    label := S "Comisión", debug := S "^Comisión por" }

/-- `dep[oó]sito\s+en\s+efectivo\b` -/
def rule13 : Rule :=
  { re := seqs [lits "dep", .cls [.chr 'o', .chr 'ó'], lits "sito", wsP, lits "en", wsP,
      lits "efectivo", .wb]
    label := S "Depósito en Efectivo", debug := S "Depósito en Efectivo" }

/-- `dep[oó]sito\s+negocios\s+afiliados\b` -/
def rule14 : Rule :=
  { re := seqs [lits "dep", .cls [.chr 'o', .chr 'ó'], lits "sito", wsP, lits "negocios",
      wsP, lits "afiliados", .wb]
    label := S "Depósito Negocios Afiliados", debug := S "Depósito Negocios Afiliados" }

/-- `dep[oó]sito\s+sbc\s+de\s+cobro\s+inmediato\b` -/
def rule15 : Rule :=
  { re := seqs [lits "dep", .cls [.chr 'o', .chr 'ó'], lits "sito", wsP, lits "sbc", wsP,
      lits "de", wsP, lits "cobro", wsP, lits "inmediato", .wb]
    label := S "Depósito SBC de Cobro Inmediato", debug := S "Depósito SBC de Cobro Inmediato" }

/-- `^\s*deposito\s+para\s+eliminacion\s+de\s+sobregiro\s+por\s*\(?[\d,]+\.\d{2}\)?\s*mxn\b.*` -/
def rule16 : Rule :=
  { re := seqs [.bol, wsS, lits "deposito", wsP, lits "para", wsP, lits "eliminacion",
      wsP, lits "de", wsP, lits "sobregiro", wsP, lits "por", wsS, amountRE, wsS,
      lits "mxn", .wb, starGr dotN]
    label := S "Depósito para Eliminación de Sobregiro"
    debug := S "Depósito para Eliminación de Sobregiro con monto" }

/-- `^\s*(spei enviado)[:\s]?.*` -/
def rule17 : Rule :=
  { re := seqs [.bol, wsS, .grp (lits "spei enviado"), optG colonOrWs, starGr dotN]
    label := S "SPEI Enviado", debug := S "SPEI Enviado" }

/-- `^\s*(spei recibido)[:\s]?.*` -/
def rule18 : Rule :=
  { re := seqs [.bol, wsS, .grp (lits "spei recibido"), optG colonOrWs, starGr dotN]
    label := S "SPEI Recibido", debug := S "SPEI Recibido" }

/-- `^\s*devoluci[oó]n\s+de\s+spei[:\s]?.*` -/
def rule19 : Rule :=
  { re := seqs [.bol, wsS, lits "devoluci", .cls [.chr 'o', .chr 'ó'], lits "n", wsP,
      lits "de", wsP, lits "spei", optG colonOrWs, starGr dotN]
    label := S "Devolución de SPEI", debug := S "Devolución de SPEI" }

/-- `^\s*entrega\s+de\s+recursos\s+por` -/
def rule20 : Rule :=
  { re := seqs [.bol, wsS, lits "entrega", wsP, lits "de", wsP, lits "recursos", wsP,
      lits "por"]
    label := S "Entrega de Recursos", debug := S "Entrega de Recursos" }

/-- `^\s*retiro\s+de\s+recursos\s+por` -/
def rule21 : Rule :=
  { re := seqs [.bol, wsS, lits "retiro", wsP, lits "de", wsP, lits "recursos", wsP,
      lits "por"]
    label := S "Retiro de Recursos", debug := S "Retiro de Recursos" }

/-- `^\s*iva\s+comision\s+por\s+administracion\s*.*` -/
def rule22 : Rule :=
  { re := seqs [.bol, wsS, lits "iva", wsP, lits "comision", wsP, lits "por", wsP,
      lits "administracion", wsS, starGr dotN]
    label := S "IVA", debug := S "IVA" }

/-- `^\s*iva\s+comision\s+por\s+penalizacion\s*.*` -/
def rule23 : Rule :=
  { re := seqs [.bol, wsS, lits "iva", wsP, lits "comision", wsP, lits "por", wsP,
      lits "penalizacion", wsS, starGr dotN]
    label := S "IVA", debug := S "IVA" }

/-- `^\s*iva\s+comision\s+por\s+transferencia\s*.*` -/
def rule24 : Rule :=
  { re := seqs [.bol, wsS, lits "iva", wsP, lits "comision", wsP, lits "por", wsP,
      lits "transferencia", wsS, starGr dotN]
    label := S "IVA", debug := S "IVA" }

/-- `^\s*iva\s+comision\b.*numero\s+de\s+autorizacion\b.*` -/
def rule25 : Rule :=
  { re := seqs [.bol, wsS, lits "iva", wsP, lits "comision", .wb, starGr dotN,
      lits "numero", wsP, lits "de", wsP, lits "autorizacion", .wb, starGr dotN]
    label := S "IVA", debug := S "IVA" }

/-- `telefono-?telmex` -/
def rule26 : Rule :=
  { re := seqs [lits "telefono", optG (.lit '-'), lits "telmex"]
    label := S "Pago de Servicios TELMEX EN LINEA"
    debug := S "Pago de Servicios TELMEX EN LINEA" }

/-- `n[oó]mina\b` -/
def rule27 : Rule :=
  { re := seqs [lits "n", .cls [.chr 'o', .chr 'ó'], lits "mina", .wb]
    label := S "Nómina", debug := S "Nómina" }

/-- `por\s*\(?[\d,]+\.\d{2}\)?\s*mxn\s*\|\s*recibo\s*#\s*\d+\b` -/
def rule28 : Rule :=
  { re := seqs [lits "por", wsS, amountRE, wsS, lits "mxn", wsS, .lit '|', wsS,
      lits "recibo", wsS, .lit '#', wsS, plusG dgt, .wb]
    label := S "por *", debug := S "por (monto) mxn | Recibo # (caso general estricto)" }

/-- `por\s*\(?[\d,]+\.\d{2}\)?\s*mxn\s*cargo` -/
def rule29 : Rule :=
  { re := seqs [lits "por", wsS, amountRE, wsS, lits "mxn", wsS, lits "cargo"]
    label := S "__RAW__por_mxn_cargo", debug := S "por (xx) mxn Cargo" }

/-- `compiled_rules`: the 29 rules in source order. -/
def compiled_rules : List Rule :=
  [rule01, rule02, rule03, rule04, rule05, rule06, rule07, rule08, rule09, rule10,
   rule11, rule12, rule13, rule14, rule15, rule16, rule17, rule18, rule19, rule20,
   rule21, rule22, rule23, rule24, rule25, rule26, rule27, rule28, rule29]

/-- `Cargo a cuenta por deposito con cheque .*?\|` — the boilerplate prefix
removed by the `__RAW__por_mxn_cargo` rule (compiled with `re.IGNORECASE`,
without `(?s)`). -/
def cargoPrefixRE : RE :=
  .seq (lits "Cargo a cuenta por deposito con cheque ") (.seq (starLz dotN) (.lit '|'))

/-! ## The classifier (`normalize_text`, `build_label`, `apply_rules_vectorized`) -/

/-- `normalize_text`: `None` becomes the empty string; otherwise NFKD
decomposition, removal of combining marks, colons to spaces, whitespace
collapsing via `re.sub(r"\s+", " ", ·)`, trimming, lower-casing. -/
def normalize_text (s : Option (List Char)) : List Char :=
  match s with
  | none => []
  | some t =>
    let t1 := (t.map nfkdChar).flatten
    let t2 := t1.filter fun c => !(isCombining c)
    let t3 := t2.map fun c => if c = ':' then ' ' else c
    (strip (collapseWs t3)).map lowerCh

/-- `RAW_LABEL_SET = {"por *", "__RAW__por_mxn_cargo"}`. -/
def RAW_LABEL_SET : List (List Char) := [S "por *", S "__RAW__por_mxn_cargo"]

/-- Cleaning applied to a captured fragment inside `build_label`:
`str(g).strip()`, then `re.sub(r"\s*\|\s*", " ", ·)`, then
`re.sub(r"\s+", " ", ·).strip()`. -/
def cleanFragment (g : List Char) : List Char :=
  strip (collapseWs (subPipe (strip g)))

/-- `label.lower().startswith(p)`. -/
def lowPre (lab : List Char) (p : String) : Bool :=
  (S p).isPrefixOf (lab.map lowerCh)

/-- `build_label` from the group-extraction branch: a NaN group keeps the
template verbatim; otherwise the cleaned fragment is substituted for the
`"****"` placeholder or appended according to the template's prefix. -/
def build_label (lab : List Char) (g : Option (List Char)) : List Char :=
  match g with
  | none => lab
  | some g0 =>
    let gstr := cleanFragment g0
    if isSub (S "****") lab then replaceSub (S "****") gstr lab
    else if lowPre lab "spei enviado" || lowPre lab "spei recibido" then
      lab ++ S ": " ++ gstr
    else if lowPre lab "devolución de spei" then lab ++ S ": " ++ gstr
    else if lowPre lab "retiro de recursos" then lab ++ S " Beneficiario " ++ gstr
    else if lowPre lab "entrega de recursos" then lab ++ S " " ++ gstr
    else lab ++ S " " ++ gstr

/-- A cell of the description column before coercion: a string, an absent
value (`NaN`/`None`), or a non-string scalar such as a number. -/
inductive Cell where
  | null
  | str (s : List Char)
  | num (n : Int)
deriving DecidableEq

/-- `fillna("").astype(str)`: absent values become the empty string and any
other scalar is rendered as its string form, never raising. -/
def Cell.coerce : Cell → List Char
  | .null => []
  | .str s => s
  | .num n => (toString n).data

/-- One row of the working frame: the raw column, the normalized column and
the (initially unset) label column. -/
structure Row where
  raw : List Char
  norm : List Char
  label : Option (List Char)
deriving DecidableEq

/-- A row of the result: the raw text and its final label. -/
structure OutRow where
  raw : List Char
  label : List Char
deriving DecidableEq

/-- `pattern.groups > 0`. -/
def hasGroup (re : RE) : Bool := decide (0 < countGroups re)

/-- The batch-level fallback test of the group branch: the raw-text
extraction pass produced no capture on any currently-unset row
(`extracted.dropna(how="all").empty`). -/
def groupUseNorm (ru : Rule) (rows : List Row) : Bool :=
  rows.all fun r => r.label.isSome || (reExtract ru.re r.raw).isNone

/-- Per-row action of a group-bearing rule: an already-labelled row is
untouched; otherwise the group is extracted from the raw text, or from the
normalized text when the whole-batch raw pass came up empty. -/
def groupRowFn (ru : Rule) (useNorm : Bool) (r : Row) : Row :=
  if r.label.isSome then r
  else
    match reExtract ru.re (if useNorm then r.norm else r.raw) with
    | none => r
    | some g => { r with label := some (build_label ru.label (some g)) }

/-- The raw text as rewritten by a raw-passthrough rule before trimming: the
`__RAW__por_mxn_cargo` rule first deletes every
`Cargo a cuenta por deposito con cheque .*?\|` segment. -/
def rawFixed (ru : Rule) (r : Row) : List Char :=
  if ru.label = S "__RAW__por_mxn_cargo" then replaceAll cargoPrefixRE [] r.raw
  else r.raw

/-- Per-row action of a raw-passthrough rule: containment match on the raw
text; a matching unset row is labelled with its own (possibly rewritten)
trimmed raw text. -/
def rawRowFn (ru : Rule) (r : Row) : Row :=
  if r.label.isSome then r
  else if reContains ru.re r.raw then { r with label := some (strip (rawFixed ru r)) }
  else r

/-- Per-row action of an ordinary literal rule: containment match on the
normalized text; a matching unset row receives the literal template. -/
def litRowFn (ru : Rule) (r : Row) : Row :=
  if r.label.isSome then r
  else if reContains ru.re r.norm then { r with label := some ru.label }
  else r

/-- One pass of the rule loop body: short-circuit when nothing is unset,
then dispatch on `pattern.groups > 0` and on membership of the label in
`RAW_LABEL_SET`. -/
def applyRule (ru : Rule) (rows : List Row) : List Row :=
  if rows.all fun r => r.label.isSome then rows
  else if hasGroup ru.re then rows.map (groupRowFn ru (groupUseNorm ru rows))
  else if ru.label ∈ RAW_LABEL_SET then rows.map (rawRowFn ru)
  else rows.map (litRowFn ru)

/-- The rule loop: fold the rules in table order over the batch. -/
def runRules (rules : List Rule) (rows : List Row) : List Row :=
  rules.foldl (fun rs ru => applyRule ru rs) rows

/-- Construction of the working row for one cell: raw column
(`fillna("").astype(str)`) and normalized column, label unset. -/
def initRow (c : Cell) : Row :=
  let raw := Cell.coerce c
  { raw := raw, norm := normalize_text (some raw), label := none }

/-- `apply_rules_vectorized`: build the working columns, run the rules in
order, and fill every still-unset label with the `"UNKNOWN"` sentinel. -/
def apply_rules_vectorized (cells : List Cell) : List OutRow :=
  (runRules compiled_rules (cells.map initRow)).map
    fun r => { raw := r.raw, label := r.label.getD (S "UNKNOWN") }

/-- The final label column. -/
def classifyLabels (cells : List Cell) : List (List Char) :=
  (apply_rules_vectorized cells).map fun r => r.label

/-- Remove one leading space, if any. -/
def dropOneSp : List Char → List Char
  | [] => []
  | c :: t => if c = ' ' then t else c :: t

/-- The spec's wording of whitespace collapsing, as a right fold: every run
of whitespace characters becomes a single space. -/
def collapseSpec : List Char → List Char
  | [] => []
  | c :: cs =>
    if isSpaceCh c then
      (if (collapseSpec cs).head? = some ' ' then collapseSpec cs else ' ' :: collapseSpec cs)
    else c :: collapseSpec cs

/-- Following the spec's words: decompose accented characters and discard
the combining marks, replace colon characters with spaces, collapse runs of
whitespace to a single space, trim leading and trailing whitespace,
lower-case the result. -/
def normalizeSpec (t : List Char) : List Char :=
  (strip (collapseSpec
    ((((t.map nfkdChar).flatten).filter fun c => !(isCombining c)).map
      fun c => if c = ':' then ' ' else c))).map lowerCh


/-! ## General properties of the rule loop -/

/-- The shapes a label assigned by rule `ru` to a row with raw text `raw`
can take: the literal template, a templated label built from a captured
fragment, the trimmed raw text, or the trimmed raw text with the cargo
boilerplate removed. -/
def LabelForm (ru : Rule) (raw lab : List Char) : Prop :=
  lab = ru.label ∨ (∃ g, lab = build_label ru.label (some g)) ∨
  lab = strip raw ∨ lab = strip (replaceAll cargoPrefixRE [] raw)

/-- Relation between a row and its image under one rule application: the
text columns are untouched, an already-labelled row is left alone, and a
newly assigned label has one of the shapes of `LabelForm`. -/
def RowOk (ru : Rule) (r r2 : Row) : Prop :=
  r2.raw = r.raw ∧ r2.norm = r.norm ∧ (r.label.isSome = true → r2 = r) ∧
  (r2.label = r.label ∨ ∃ v, r2.label = some v ∧ LabelForm ru r.raw v)

lemma groupRowFn_ok (ru : Rule) (un : Bool) (r : Row) : RowOk ru r (groupRowFn ru un r) := by
  unfold RowOk groupRowFn
  cases hs : r.label.isSome with
  | true => exact ⟨rfl, rfl, fun _ => rfl, Or.inl rfl⟩
  | false =>
    cases hex : reExtract ru.re (if un then r.norm else r.raw) with
    | none => exact ⟨rfl, rfl, fun h => by simp at h, Or.inl rfl⟩
    | some g =>
      exact ⟨rfl, rfl, fun h => by simp at h,
        Or.inr ⟨build_label ru.label (some g), rfl, Or.inr (Or.inl ⟨g, rfl⟩)⟩⟩

lemma rawRowFn_ok (ru : Rule) (r : Row) : RowOk ru r (rawRowFn ru r) := by
  unfold RowOk rawRowFn
  cases hs : r.label.isSome with
  | true => exact ⟨rfl, rfl, fun _ => rfl, Or.inl rfl⟩
  | false =>
    by_cases hc : reContains ru.re r.raw = true
    · rw [if_pos hc]
      refine ⟨rfl, rfl, fun h => by simp at h,
        Or.inr ⟨strip (rawFixed ru r), rfl, ?_⟩⟩
      unfold rawFixed
      by_cases hl : ru.label = S "__RAW__por_mxn_cargo"
      · rw [if_pos hl]; exact Or.inr (Or.inr (Or.inr rfl))
      · rw [if_neg hl]; exact Or.inr (Or.inr (Or.inl rfl))
    · rw [if_neg hc]
      exact ⟨rfl, rfl, fun h => by simp at h, Or.inl rfl⟩

lemma litRowFn_ok (ru : Rule) (r : Row) : RowOk ru r (litRowFn ru r) := by
  unfold RowOk litRowFn
  cases hs : r.label.isSome with
  | true => exact ⟨rfl, rfl, fun _ => rfl, Or.inl rfl⟩
  | false =>
    by_cases hc : reContains ru.re r.norm = true
    · rw [if_pos hc]
      exact ⟨rfl, rfl, fun h => by simp at h,
        Or.inr ⟨ru.label, rfl, Or.inl rfl⟩⟩
    · rw [if_neg hc]
      exact ⟨rfl, rfl, fun h => by simp at h, Or.inl rfl⟩

/-- One rule application, seen element-wise: every row has an image related
to it by `RowOk`. -/
lemma applyRule_get (ru : Rule) (rows : List Row) (i : Nat) (r : Row)
    (h : rows[i]? = some r) :
    ∃ r2, (applyRule ru rows)[i]? = some r2 ∧ RowOk ru r r2 := by
  unfold applyRule
  split_ifs with h1 h2 h3
  · exact ⟨r, h, rfl, rfl, fun _ => rfl, Or.inl rfl⟩
  · exact ⟨groupRowFn ru (groupUseNorm ru rows) r,
      by rw [List.getElem?_map, h]; rfl, groupRowFn_ok ru _ r⟩
  · exact ⟨rawRowFn ru r, by rw [List.getElem?_map, h]; rfl, rawRowFn_ok ru r⟩
  · exact ⟨litRowFn ru r, by rw [List.getElem?_map, h]; rfl, litRowFn_ok ru r⟩

/-- The rule loop, seen element-wise: text columns are invariant, a row
labelled at some point is never touched again, and every assigned label
arises from some rule of the list via `LabelForm`. -/
lemma runRules_get (rules : List Rule) (rows : List Row) (i : Nat) (r : Row)
    (h : rows[i]? = some r) :
    ∃ r2, (runRules rules rows)[i]? = some r2 ∧ r2.raw = r.raw ∧ r2.norm = r.norm ∧
      (r.label.isSome = true → r2 = r) ∧
      (r2.label = r.label ∨ ∃ ru ∈ rules, ∃ v, r2.label = some v ∧ LabelForm ru r.raw v) := by
  induction rules generalizing rows r with
  | nil => exact ⟨r, h, rfl, rfl, fun _ => rfl, Or.inl rfl⟩
  | cons ru rest ih =>
    obtain ⟨r1, h1, hraw1, hnorm1, hsome1, hlab1⟩ := applyRule_get ru rows i r h
    obtain ⟨r2, h2, hraw2, hnorm2, hsome2, hlab2⟩ := ih (applyRule ru rows) r1 h1
    refine ⟨r2, h2, hraw2.trans hraw1, hnorm2.trans hnorm1, ?_, ?_⟩
    · intro hs
      have e1 : r1 = r := hsome1 hs
      have e2 : r2 = r1 := hsome2 (by rw [e1]; exact hs)
      exact e2.trans e1
    · rcases hlab2 with h2l | ⟨ru2, hmem, v, hv, hf⟩
      · rcases hlab1 with h1l | ⟨v, hv, hf⟩
        · exact Or.inl (h2l.trans h1l)
        · exact Or.inr ⟨ru, List.mem_cons_self ru rest, v, h2l.trans hv, hf⟩
      · rw [hraw1] at hf
        exact Or.inr ⟨ru2, List.mem_cons_of_mem ru hmem, v, hv, hf⟩

lemma applyRule_length (ru : Rule) (rows : List Row) :
    (applyRule ru rows).length = rows.length := by
  unfold applyRule
  split_ifs <;> simp

lemma runRules_length (rules : List Rule) (rows : List Row) :
    (runRules rules rows).length = rows.length := by
  induction rules generalizing rows with
  | nil => rfl
  | cons ru rest ih => exact (ih (applyRule ru rows)).trans (applyRule_length ru rows)

/-- The raw column is never modified by a rule application. -/
lemma applyRule_raw_map (ru : Rule) (rows : List Row) :
    (applyRule ru rows).map Row.raw = rows.map Row.raw := by
  unfold applyRule
  split_ifs
  · rfl
  · rw [List.map_map]
    exact List.map_congr_left fun a _ => (groupRowFn_ok ru _ a).1
  · rw [List.map_map]
    exact List.map_congr_left fun a _ => (rawRowFn_ok ru a).1
  · rw [List.map_map]
    exact List.map_congr_left fun a _ => (litRowFn_ok ru a).1

/-- The raw column is never modified by the rule loop. -/
lemma runRules_raw_map (rules : List Rule) (rows : List Row) :
    (runRules rules rows).map Row.raw = rows.map Row.raw := by
  induction rules generalizing rows with
  | nil => rfl
  | cons ru rest ih => exact (ih (applyRule ru rows)).trans (applyRule_raw_map ru rows)

/-- The classifier reads a cell only through its string coercion. -/
lemma classifyLabels_coerce (cells : List Cell) :
    classifyLabels (cells.map fun c => Cell.str (Cell.coerce c)) = classifyLabels cells := by
  unfold classifyLabels apply_rules_vectorized
  have h : (cells.map fun c => Cell.str (Cell.coerce c)).map initRow = cells.map initRow := by
    rw [List.map_map]
    exact List.map_congr_left fun c _ => rfl
  rw [h]

/-! ## Spec-side formulation of the normalizer's whitespace collapsing -/

lemma dropOneSp_cons (c : Char) (t : List Char) :
    dropOneSp (c :: t) = if c = ' ' then t else c :: t := rfl

lemma collapseWsAux_consF (c : Char) (cs : List Char) :
    collapseWsAux false (c :: cs) =
      if isSpaceCh c then ' ' :: collapseWsAux true cs else c :: collapseWsAux false cs := by
  simp only [collapseWsAux]
  by_cases hsp : isSpaceCh c = true
  · rw [if_pos hsp, if_pos hsp, if_neg Bool.false_ne_true]
  · rw [if_neg hsp, if_neg hsp]

lemma collapseWsAux_consT (c : Char) (cs : List Char) :
    collapseWsAux true (c :: cs) =
      if isSpaceCh c then collapseWsAux true cs else c :: collapseWsAux false cs := by
  simp only [collapseWsAux]
  by_cases hsp : isSpaceCh c = true
  · rw [if_pos hsp, if_pos hsp, if_pos trivial]
  · rw [if_neg hsp, if_neg hsp]

lemma collapseSpec_cons (c : Char) (cs : List Char) :
    collapseSpec (c :: cs) =
      if isSpaceCh c then
        (if (collapseSpec cs).head? = some ' ' then collapseSpec cs else ' ' :: collapseSpec cs)
      else c :: collapseSpec cs := rfl

lemma dropOneSp_of_head_ne (t : List Char) (h : ¬ t.head? = some ' ') : dropOneSp t = t := by
  cases t with
  | nil => rfl
  | cons d u =>
    rw [dropOneSp_cons, if_neg]
    intro hd
    exact h (by rw [hd]; rfl)

/-- The source's left-to-right whitespace collapsing agrees with the spec's
formulation, in both starting states of the worker. -/
lemma collapse_aux_eq (s : List Char) :
    collapseWsAux false s = collapseSpec s ∧
      collapseWsAux true s = dropOneSp (collapseSpec s) := by
  induction s with
  | nil => exact ⟨rfl, rfl⟩
  | cons c cs ih =>
    obtain ⟨ihF, ihT⟩ := ih
    by_cases hsp : isSpaceCh c = true
    · have hR : collapseSpec (c :: cs) =
          (if (collapseSpec cs).head? = some ' ' then collapseSpec cs
           else ' ' :: collapseSpec cs) := by
        rw [collapseSpec_cons, if_pos hsp]
      constructor
      · rw [collapseWsAux_consF, if_pos hsp, ihT, hR]
        by_cases hh : (collapseSpec cs).head? = some ' '
        · rw [if_pos hh]
          cases hcc : collapseSpec cs with
          | nil => rw [hcc] at hh; simp at hh
          | cons d t =>
            have hd : d = ' ' := by rw [hcc] at hh; simpa using hh
            rw [dropOneSp_cons, if_pos hd, hd]
        · rw [if_neg hh, dropOneSp_of_head_ne _ hh]
      · rw [collapseWsAux_consT, if_pos hsp, ihT, hR]
        by_cases hh : (collapseSpec cs).head? = some ' '
        · rw [if_pos hh]
        · rw [if_neg hh, dropOneSp_cons, if_pos rfl, dropOneSp_of_head_ne _ hh]
    · have hc : ¬ c = ' ' := fun h => hsp (by rw [h]; rfl)
      have hR : collapseSpec (c :: cs) = c :: collapseSpec cs := by
        rw [collapseSpec_cons, if_neg hsp]
      constructor
      · rw [collapseWsAux_consF, if_neg hsp, ihF, hR]
      · rw [collapseWsAux_consT, if_neg hsp, ihF, hR, dropOneSp_cons, if_neg hc]

/-- `re.sub(r"\s+", " ", ·)` is exactly the spec's collapse of whitespace
runs to single spaces. -/
lemma collapseWs_eq_spec (s : List Char) : collapseWs s = collapseSpec s :=
  (collapse_aux_eq s).1

/-! ## The claims -/

set_option maxRecDepth 200000

/-- C2: rule application is first-match-wins in fixed table order — once a
record's label has been assigned by some rule of a prefix of the table, the
remaining rules never re-examine or change that record, so its final label
is the one produced by the earliest matching rule regardless of any later
rule's template. -/
theorem spec_c2_first_match_wins (rs1 rs2 : List Rule) (rows : List Row) (i : Nat)
    (r : Row) (v : List Char)
    (h1 : (runRules rs1 rows)[i]? = some r) (h2 : r.label = some v) :
    ∃ r2, (runRules (rs1 ++ rs2) rows)[i]? = some r2 ∧ r2.label = some v := by
  have happ : runRules (rs1 ++ rs2) rows = runRules rs2 (runRules rs1 rows) := by
    unfold runRules
    rw [List.foldl_append]
  obtain ⟨r2, hr2, _, _, hsome, _⟩ := runRules_get rs2 (runRules rs1 rows) i r h1
  have he : r2 = r := hsome (by rw [h2]; rfl)
  exact ⟨r2, by rw [happ]; exact hr2, by rw [he, h2]⟩

/-- C2, witness: a record labelled `Comisión` by the table keeps that label
when the whole table is run again after it. -/
theorem spec_c2_witness :
    ∃ r2, (runRules (compiled_rules ++ compiled_rules)
        [initRow (Cell.str (S "Comision por administracion"))])[0]? = some r2 ∧
      r2.label = some (S "Comisión") :=
  spec_c2_first_match_wins compiled_rules compiled_rules
    [initRow (Cell.str (S "Comision por administracion"))] 0
    ⟨S "Comision por administracion", S "comision por administracion", some (S "Comisión")⟩
    (S "Comisión") (by decide) (by decide)

/-- C6: `normalize` maps a null input to the empty string, and on every
input it performs exactly the spec's pipeline — decompose accented
characters and discard the combining marks, replace colons by spaces,
collapse whitespace runs to one space, trim, lower-case — deterministically
and totally; a sample accented, colon-ridden input normalizes as
described. -/
theorem spec_c6_normalize :
    normalize_text none = S ""
    ∧ (∀ t : List Char, normalize_text (some t) = normalizeSpec t)
    ∧ normalize_text (some []) = normalize_text none
    ∧ normalize_text (some (S "  DEPÓSITO:  EN  EFECTIVO  ")) = S "deposito en efectivo" := by
  refine ⟨rfl, ?_, rfl, by decide⟩
  intro t
  show (strip (collapseWs
      ((((t.map nfkdChar).flatten).filter fun c => !(isCombining c)).map
        fun c => if c = ':' then ' ' else c))).map lowerCh = normalizeSpec t
  unfold normalizeSpec
  rw [collapseWs_eq_spec]

/-- C8 counterexample: the label assigned to a record is *not* a function of
that record's raw text and the rule table alone — the very same description
is labelled `CHEQUE 1234` when classified alone but `UNKNOWN` when a second
record wins the raw-extraction pass of the cheque rule, because the
normalized-text fallback is decided at batch level. -/
theorem spec_c8_counterexample :
    classifyLabels [Cell.str (S "mxn: numero de cheque | 1234 |")] = [S "CHEQUE 1234"]
    ∧ classifyLabels [Cell.str (S "mxn: numero de cheque | 1234 |"),
        Cell.str (S "mxn numero de cheque | 9999 |")] = [S "UNKNOWN", S "CHEQUE 9999"] :=
  ⟨by decide, by decide⟩

/-- C8 (amended): classification is pure and idempotent at batch level —
re-running the classifier on the raw texts of an already-labelled batch
(the existing label column is ignored and rebuilt) reproduces exactly the
same labels, the output being a deterministic function of the batch's raw
texts and the rule table. -/
theorem spec_c8_idempotent (cells : List Cell) :
    classifyLabels ((apply_rules_vectorized cells).map fun r => Cell.str r.raw) =
      classifyLabels cells := by
  have hsplit : ∀ l : List Row, l.map (fun r => Cell.str r.raw) = (l.map Row.raw).map Cell.str := by
    intro l
    rw [List.map_map]
    exact List.map_congr_left fun r _ => rfl
  have hraws : (apply_rules_vectorized cells).map (fun r => Cell.str r.raw) =
      cells.map fun c => Cell.str (Cell.coerce c) := by
    unfold apply_rules_vectorized
    rw [List.map_map]
    have e1 : (runRules compiled_rules (cells.map initRow)).map
        ((fun r => Cell.str r.raw) ∘ fun r => OutRow.mk r.raw (r.label.getD (S "UNKNOWN"))) =
        (runRules compiled_rules (cells.map initRow)).map fun r => Cell.str r.raw :=
      List.map_congr_left fun r _ => rfl
    rw [e1, hsplit, runRules_raw_map, ← hsplit, List.map_map]
    exact List.map_congr_left fun c _ => rfl
  rw [hraws, classifyLabels_coerce]

/-- C9 (amended): classification has no partial-batch failure mode — it is
total, assigns a label to every record (one output label per input cell),
and reads a cell only through its string coercion: an absent/null value
becomes the empty string, while a non-null unexpected-type scalar is
rendered as its string form (`astype(str)`), never an exception in either
case; a null cell and a numeric cell both end with the `UNKNOWN`
sentinel. -/
theorem spec_c9_no_failure :
    (∀ cells : List Cell, (classifyLabels cells).length = cells.length)
    ∧ (∀ cells : List Cell,
        classifyLabels (cells.map fun c => Cell.str (Cell.coerce c)) = classifyLabels cells)
    ∧ Cell.coerce Cell.null = S ""
    ∧ (∀ n : Int, Cell.coerce (Cell.num n) = (toString n).data)
    ∧ classifyLabels [Cell.null] = [S "UNKNOWN"]
    ∧ classifyLabels [Cell.num 7] = [S "UNKNOWN"] := by
  refine ⟨?_, classifyLabels_coerce, rfl, fun n => rfl, by decide, by decide⟩
  intro cells
  unfold classifyLabels apply_rules_vectorized
  rw [List.length_map, List.length_map, runRules_length, List.length_map]

/-- C9 counterexample: a non-null value of unexpected type is *not* coerced
to the empty string before matching — the numeric cell `7` is fed to the
matcher as its string rendering `"7"`, a non-empty text. -/
theorem spec_c9_counterexample :
    Cell.coerce (Cell.num 7) = S "7" ∧ ¬ Cell.coerce (Cell.num 7) = S "" :=
  ⟨by decide, by decide⟩

/-- A row read off a list by position is a member. -/
lemma mem_of_getElem_eq {α : Type} {l : List α} {i : Nat} {a : α}
    (h : l[i]? = some a) : a ∈ l := by
  obtain ⟨hlt, rfl⟩ := List.getElem?_eq_some.mp h
  exact List.getElem_mem hlt

/-- A batch containing an unset row does not satisfy the loop's
short-circuit condition. -/
lemma not_all_some_of_unset {rows : List Row} {i : Nat} {r : Row}
    (hri : rows[i]? = some r) (hrlab : r.label = none) :
    ¬ (rows.all fun x => x.label.isSome) = true := by
  intro hall
  have := List.all_eq_true.1 hall r (mem_of_getElem_eq hri)
  rw [hrlab] at this
  simp at this

/-- `build_label` on a present capture, written out as its decision
chain. -/
lemma build_label_some (lab g : List Char) :
    build_label lab (some g) =
      (if isSub (S "****") lab then replaceSub (S "****") (cleanFragment g) lab
       else if lowPre lab "spei enviado" || lowPre lab "spei recibido" then
         lab ++ S ": " ++ cleanFragment g
       else if lowPre lab "devolución de spei" then lab ++ S ": " ++ cleanFragment g
       else if lowPre lab "retiro de recursos" then lab ++ S " Beneficiario " ++ cleanFragment g
       else if lowPre lab "entrega de recursos" then lab ++ S " " ++ cleanFragment g
       else lab ++ S " " ++ cleanFragment g) := rfl

/-- C1 (amended): after classification every record carries a label, and it
is either the `UNKNOWN` sentinel or, for some rule of the table, a literal
template, a templated/enriched string, or a raw-passthrough string derived
from the record's own raw text; the label is never null (the output label
column is total), and the unmatched description
`algo sin ningun patron reconocible` receives exactly `UNKNOWN`.  (The
original claim's "never the empty string" is dropped: see the
counterexample.) -/
theorem spec_c1_label_forms :
    (∀ (cells : List Cell) (i : Nat) (out : OutRow),
        (apply_rules_vectorized cells)[i]? = some out →
        out.label = S "UNKNOWN" ∨ ∃ ru ∈ compiled_rules, LabelForm ru out.raw out.label)
    ∧ classifyLabels [Cell.str (S "algo sin ningun patron reconocible")] = [S "UNKNOWN"] := by
  constructor
  · intro cells i out h
    unfold apply_rules_vectorized at h
    rw [List.getElem?_map] at h
    cases hr : (runRules compiled_rules (cells.map initRow))[i]? with
    | none => rw [hr] at h; simp at h
    | some r2 =>
      rw [hr] at h
      have hout : out = OutRow.mk r2.raw (r2.label.getD (S "UNKNOWN")) :=
        (Option.some.inj h).symm
      have hi2 : i < (runRules compiled_rules (cells.map initRow)).length := by
        by_contra hge
        rw [List.getElem?_eq_none (by omega)] at hr
        cases hr
      have hi0 : i < cells.length := by
        rw [runRules_length, List.length_map] at hi2
        exact hi2
      obtain ⟨c0, hc0⟩ : ∃ c0, cells[i]? = some c0 :=
        ⟨_, List.getElem?_eq_getElem hi0⟩
      have hr0 : (cells.map initRow)[i]? = some (initRow c0) := by
        rw [List.getElem?_map, hc0]
        rfl
      obtain ⟨r2x, hr2x, hraw, hnorm, hsome, hlab⟩ :=
        runRules_get compiled_rules (cells.map initRow) i (initRow c0) hr0
      have hee : r2x = r2 := by
        rw [hr] at hr2x
        exact (Option.some.inj hr2x).symm
      subst hee
      rcases hlab with hl | ⟨ru, hmem, v, hv, hf⟩
      · left
        rw [hout]
        show r2x.label.getD (S "UNKNOWN") = S "UNKNOWN"
        have hnone : r2x.label = none := hl.trans rfl
        rw [hnone]
        rfl
      · right
        refine ⟨ru, hmem, ?_⟩
        rw [hout]
        show LabelForm ru r2x.raw (r2x.label.getD (S "UNKNOWN"))
        rw [hv]
        show LabelForm ru r2x.raw v
        rw [hraw]
        exact hf
  · decide

/-- C1 counterexample: a record resolved by the `__RAW__por_mxn_cargo`
raw-passthrough rule whose prefix-stripping deletes the entire raw text
ends with the *empty* label — refuting "never the empty string". -/
theorem spec_c1_counterexample :
    classifyLabels
        [Cell.str (S "Cargo a cuenta por deposito con cheque por (1.00) mxn cargo |")] =
      [S ""] := by decide

/-- C1, witness: the one record of a null-cell batch carries the `UNKNOWN`
sentinel, one of the admitted label forms. -/
theorem spec_c1_witness :
    (OutRow.mk (S "") (S "UNKNOWN")).label = S "UNKNOWN" ∨
      ∃ ru ∈ compiled_rules,
        LabelForm ru (OutRow.mk (S "") (S "UNKNOWN")).raw (OutRow.mk (S "") (S "UNKNOWN")).label :=
  spec_c1_label_forms.1 [Cell.null] 0 (OutRow.mk (S "") (S "UNKNOWN")) (by decide)

/-- C3: for every group-bearing rule the raw-to-normalized fallback is
decided at batch level over the whole currently-unset subset — if some
unset record captures on its raw text, the rule leaves every unset record
whose raw extraction failed completely untouched (no normalized-text
attempt for it); if no unset record captures on raw text, the extraction is
retried once on the normalized text of those same records, resolving
exactly the records whose normalized text captures. -/
theorem spec_c3_batch_fallback (ru : Rule) (rows : List Row)
    (hg : hasGroup ru.re = true) :
    ((∃ r0 ∈ rows, r0.label = none ∧ (reExtract ru.re r0.raw).isSome = true) →
      ∀ (i : Nat) (r : Row), rows[i]? = some r → r.label = none →
        reExtract ru.re r.raw = none → (applyRule ru rows)[i]? = some r)
    ∧ ((∀ r0 ∈ rows, r0.label = none → reExtract ru.re r0.raw = none) →
      ∀ (i : Nat) (r : Row), rows[i]? = some r → r.label = none →
        (applyRule ru rows)[i]? =
          some (match reExtract ru.re r.norm with
                | none => r
                | some g => { r with label := some (build_label ru.label (some g)) })) := by
  constructor
  · rintro ⟨r0, hmem, hr0lab, hr0ex⟩ i r hri hrlab hrex
    have huse : groupUseNorm ru rows = false := by
      rw [Bool.eq_false_iff]
      intro huse
      have hx := List.all_eq_true.1 huse r0 hmem
      rw [hr0lab] at hx
      simp only [Option.isSome_none, Bool.false_or] at hx
      rw [Option.isNone_iff_eq_none] at hx
      rw [hx] at hr0ex
      simp at hr0ex
    unfold applyRule
    rw [if_neg (not_all_some_of_unset hri hrlab), if_pos hg, List.getElem?_map, hri, huse]
    simp [groupRowFn, hrlab, hrex]
  · intro hnone i r hri hrlab
    have huse : groupUseNorm ru rows = true := by
      apply List.all_eq_true.2
      intro x hx
      cases hxl : x.label with
      | some w => simp [hxl]
      | none =>
        have hxe := hnone x hx hxl
        simp [hxl, hxe]
    unfold applyRule
    rw [if_neg (not_all_some_of_unset hri hrlab), if_pos hg, List.getElem?_map, hri, huse]
    simp [groupRowFn, hrlab]

/-- C3, witness: with a first record capturing on raw text, the second
(unset, raw-extraction-failed) record is left untouched by the cheque rule
— although its own normalized text would capture `1234`. -/
theorem spec_c3_witness :
    (applyRule rule04
        [initRow (Cell.str (S "mxn numero de cheque | 9999 |")),
         initRow (Cell.str (S "mxn: numero de cheque | 1234 |"))])[1]? =
      some (initRow (Cell.str (S "mxn: numero de cheque | 1234 |"))) :=
  (spec_c3_batch_fallback rule04
      [initRow (Cell.str (S "mxn numero de cheque | 9999 |")),
       initRow (Cell.str (S "mxn: numero de cheque | 1234 |"))] (by decide)).1
    (by decide) 1 (initRow (Cell.str (S "mxn: numero de cheque | 1234 |")))
    (by decide) (by decide) (by decide)

/-- C5: a raw-passthrough rule matches by containment against the record's
raw (unnormalized) text and labels a matching unset record with its own
trimmed raw text rather than the rule's template; for the `amount + cargo`
raw rule (and only for it) the `Cargo a cuenta por deposito con cheque
... |` boilerplate is first stripped from the raw text, as scenario D's
description illustrates. -/
theorem spec_c5_raw_passthrough :
    (∀ (ru : Rule) (rows : List Row) (i : Nat) (r : Row),
      hasGroup ru.re = false → ru.label ∈ RAW_LABEL_SET →
      rows[i]? = some r → r.label = none →
      (applyRule ru rows)[i]? =
        some (if reContains ru.re r.raw then
            { r with label := some (strip (rawFixed ru r)) } else r))
    ∧ (∀ r : Row, rawFixed rule29 r = replaceAll cargoPrefixRE [] r.raw)
    ∧ (∀ (ru : Rule) (r : Row), ¬ ru.label = S "__RAW__por_mxn_cargo" →
        rawFixed ru r = r.raw)
    ∧ rule29.label = S "__RAW__por_mxn_cargo"
    ∧ classifyLabels
        [Cell.str (S "Por (1,200.00) mxn Cargo a cuenta por deposito con cheque 123 | resto del texto")] =
      [S "Por (1,200.00) mxn  resto del texto"] := by
  refine ⟨?_, ?_, ?_, rfl, by decide⟩
  · intro ru rows i r hg hraw hri hrlab
    unfold applyRule
    rw [if_neg (not_all_some_of_unset hri hrlab),
      if_neg (by rw [hg]; exact Bool.false_ne_true), if_pos hraw,
      List.getElem?_map, hri]
    have hfn : rawRowFn ru r =
        if reContains ru.re r.raw then
          { r with label := some (strip (rawFixed ru r)) } else r := by
      unfold rawRowFn
      rw [hrlab]
      rfl
    show some (rawRowFn ru r) = _
    rw [hfn]
  · intro r
    unfold rawFixed
    rw [if_pos (show rule29.label = S "__RAW__por_mxn_cargo" by decide)]
  · intro ru r hne
    unfold rawFixed
    rw [if_neg hne]

/-- C5, witness: the raw-passthrough equation instantiated at the
`amount + cargo` rule on scenario D's single-record batch. -/
theorem spec_c5_witness :
    (applyRule rule29
        [initRow (Cell.str (S "Por (1,200.00) mxn Cargo a cuenta por deposito con cheque 123 | resto del texto"))])[0]? =
      some (if reContains rule29.re
            (initRow (Cell.str (S "Por (1,200.00) mxn Cargo a cuenta por deposito con cheque 123 | resto del texto"))).raw then
          { initRow (Cell.str (S "Por (1,200.00) mxn Cargo a cuenta por deposito con cheque 123 | resto del texto")) with
              label := some (strip (rawFixed rule29
                (initRow (Cell.str (S "Por (1,200.00) mxn Cargo a cuenta por deposito con cheque 123 | resto del texto"))))) }
        else initRow (Cell.str (S "Por (1,200.00) mxn Cargo a cuenta por deposito con cheque 123 | resto del texto"))) :=
  spec_c5_raw_passthrough.1 rule29
    [initRow (Cell.str (S "Por (1,200.00) mxn Cargo a cuenta por deposito con cheque 123 | resto del texto"))] 0
    (initRow (Cell.str (S "Por (1,200.00) mxn Cargo a cuenta por deposito con cheque 123 | resto del texto")))
    (by decide) (by decide) (by decide) (by decide)

/-- C7: an ordinary literal-label rule reads a record only through its
normalized text — two unset records with the same normalized text receive
the same outcome — so case and accent variants land on the same rule and
label: `Comision por administracion` is labelled `Comisión`, and
`DEPÓSITO EN EFECTIVO` gets the same label as `deposito en efectivo`. -/
theorem spec_c7_literal_normalized :
    (∀ (ru : Rule) (rows : List Row) (i j : Nat) (ri rj : Row),
      hasGroup ru.re = false → ru.label ∉ RAW_LABEL_SET →
      rows[i]? = some ri → rows[j]? = some rj →
      ri.label = none → rj.label = none → ri.norm = rj.norm →
      ∃ si sj, (applyRule ru rows)[i]? = some si ∧ (applyRule ru rows)[j]? = some sj ∧
        si.label = sj.label)
    ∧ classifyLabels [Cell.str (S "Comision por administracion")] = [S "Comisión"]
    ∧ classifyLabels [Cell.str (S "DEPÓSITO EN EFECTIVO")] = [S "Depósito en Efectivo"]
    ∧ classifyLabels [Cell.str (S "deposito en efectivo")] = [S "Depósito en Efectivo"] := by
  refine ⟨?_, by decide, by decide, by decide⟩
  intro ru rows i j ri rj hg hnr hri hrj hli hlj hnn
  unfold applyRule
  rw [if_neg (not_all_some_of_unset hri hli),
    if_neg (by rw [hg]; exact Bool.false_ne_true), if_neg hnr]
  refine ⟨litRowFn ru ri, litRowFn ru rj, ?_, ?_, ?_⟩
  · rw [List.getElem?_map, hri]
    rfl
  · rw [List.getElem?_map, hrj]
    rfl
  · have fi : litRowFn ru ri =
        if reContains ru.re ri.norm then { ri with label := some ru.label } else ri := by
      unfold litRowFn
      rw [hli]
      rfl
    have fj : litRowFn ru rj =
        if reContains ru.re rj.norm then { rj with label := some ru.label } else rj := by
      unfold litRowFn
      rw [hlj]
      rfl
    rw [fi, fj, hnn]
    by_cases hc : reContains ru.re rj.norm = true
    · rw [if_pos hc, if_pos hc]
    · rw [if_neg hc, if_neg hc, hli, hlj]

/-- C7, witness: the accented upper-case and plain lower-case deposit
descriptions, which share a normalized text, receive the same label from
the deposit rule. -/
theorem spec_c7_witness :
    ∃ si sj,
      (applyRule rule13
          [initRow (Cell.str (S "DEPÓSITO EN EFECTIVO")),
           initRow (Cell.str (S "deposito en efectivo"))])[0]? = some si ∧
      (applyRule rule13
          [initRow (Cell.str (S "DEPÓSITO EN EFECTIVO")),
           initRow (Cell.str (S "deposito en efectivo"))])[1]? = some sj ∧
      si.label = sj.label :=
  spec_c7_literal_normalized.1 rule13
    [initRow (Cell.str (S "DEPÓSITO EN EFECTIVO")),
     initRow (Cell.str (S "deposito en efectivo"))] 0 1
    (initRow (Cell.str (S "DEPÓSITO EN EFECTIVO")))
    (initRow (Cell.str (S "deposito en efectivo")))
    (by decide) (by decide) (by decide) (by decide) (by decide) (by decide) (by decide)

/-- C10: the raw-passthrough designation applies to exactly the two label
sentinels `por *` and `__RAW__por_mxn_cargo`; a group-less rule with any
other label — in particular the first rule of the table, labelled
`RAW_MATCH` with debug tag `RAW_PATTERN_AMOUNT_REF_7` — is handled as an
ordinary literal rule: containment match on the normalized text, assigning
the literal template (not the record's raw text). -/
theorem spec_c10_raw_set_exact :
    (∀ (ru : Rule) (rows : List Row) (i : Nat) (r : Row),
      hasGroup ru.re = false → ru.label ∉ RAW_LABEL_SET →
      rows[i]? = some r → r.label = none →
      (applyRule ru rows)[i]? =
        some (if reContains ru.re r.norm then { r with label := some ru.label } else r))
    ∧ RAW_LABEL_SET = [S "por *", S "__RAW__por_mxn_cargo"]
    ∧ compiled_rules[0]? = some rule01
    ∧ rule01.label = S "RAW_MATCH"
    ∧ rule01.debug = S "RAW_PATTERN_AMOUNT_REF_7"
    ∧ hasGroup rule01.re = false
    ∧ rule01.label ∉ RAW_LABEL_SET
    ∧ classifyLabels [Cell.str (S "Por (1,234.56) mxn Nro. Ref/Docto. # 1234567")] =
        [S "RAW_MATCH"] := by
  refine ⟨?_, rfl, rfl, rfl, rfl, by decide, by decide, by decide⟩
  intro ru rows i r hg hnr hri hrlab
  unfold applyRule
  rw [if_neg (not_all_some_of_unset hri hrlab),
    if_neg (by rw [hg]; exact Bool.false_ne_true), if_neg hnr,
    List.getElem?_map, hri]
  have hfn : litRowFn ru r =
      if reContains ru.re r.norm then { r with label := some ru.label } else r := by
    unfold litRowFn
    rw [hrlab]
    rfl
  show some (litRowFn ru r) = _
  rw [hfn]

/-- C10, witness: the first rule of the table, applied to a batch whose
normalized text contains its pattern, assigns the literal `RAW_MATCH`
label. -/
theorem spec_c10_witness :
    (applyRule rule01
        [initRow (Cell.str (S "Por (1,234.56) mxn Nro. Ref/Docto. # 1234567"))])[0]? =
      some (if reContains rule01.re
            (initRow (Cell.str (S "Por (1,234.56) mxn Nro. Ref/Docto. # 1234567"))).norm then
          { initRow (Cell.str (S "Por (1,234.56) mxn Nro. Ref/Docto. # 1234567")) with
              label := some rule01.label }
        else initRow (Cell.str (S "Por (1,234.56) mxn Nro. Ref/Docto. # 1234567"))) :=
  spec_c10_raw_set_exact.1 rule01
    [initRow (Cell.str (S "Por (1,234.56) mxn Nro. Ref/Docto. # 1234567"))] 0
    (initRow (Cell.str (S "Por (1,234.56) mxn Nro. Ref/Docto. # 1234567")))
    (by decide) (by decide) (by decide) (by decide)

/-- C4: a captured fragment is trimmed, has pipe artifacts collapsed to a
single space and whitespace collapsed; the final label substitutes the
fragment for the `****` placeholder when present, else appends `": "` plus
the fragment for the SPEI-sent/received and refund-of-transfer templates,
`" Beneficiario "` plus the fragment for withdrawal templates, and `" "`
plus the fragment otherwise; scenario A's description yields
`SPEI Enviado: Juan Perez`. -/
theorem spec_c4_build_label :
    (∀ lab g : List Char, isSub (S "****") lab = true →
      build_label lab (some g) = replaceSub (S "****") (cleanFragment g) lab)
    ∧ (∀ lab g : List Char, isSub (S "****") lab = false →
      lowPre lab "spei enviado" = true ∨ lowPre lab "spei recibido" = true ∨
        lowPre lab "devolución de spei" = true →
      build_label lab (some g) = lab ++ S ": " ++ cleanFragment g)
    ∧ (∀ lab g : List Char, isSub (S "****") lab = false →
      lowPre lab "spei enviado" = false → lowPre lab "spei recibido" = false →
      lowPre lab "devolución de spei" = false → lowPre lab "retiro de recursos" = true →
      build_label lab (some g) = lab ++ S " Beneficiario " ++ cleanFragment g)
    ∧ (∀ lab g : List Char, isSub (S "****") lab = false →
      lowPre lab "spei enviado" = false → lowPre lab "spei recibido" = false →
      lowPre lab "devolución de spei" = false → lowPre lab "retiro de recursos" = false →
      build_label lab (some g) = lab ++ S " " ++ cleanFragment g)
    ∧ (∀ g : List Char, cleanFragment g = strip (collapseWs (subPipe (strip g))))
    ∧ classifyLabels
        [Cell.str (S "SPEI Enviado: | Beneficiario: Juan Perez (dato no verificado)")] =
      [S "SPEI Enviado: Juan Perez"] := by
  refine ⟨?_, ?_, ?_, ?_, fun g => rfl, by decide⟩
  · intro lab g h
    rw [build_label_some, if_pos h]
  · intro lab g h hsp
    rw [build_label_some, if_neg (by simp [h])]
    rcases hsp with h1 | h1 | h1
    · rw [if_pos (by simp [h1])]
    · rw [if_pos (by simp [h1])]
    · by_cases h2 : (lowPre lab "spei enviado" || lowPre lab "spei recibido") = true
      · rw [if_pos h2]
      · rw [if_neg h2, if_pos h1]
  · intro lab g h h1 h2 h3 h4
    rw [build_label_some, if_neg (by simp [h]), if_neg (by simp [h1, h2]),
      if_neg (by simp [h3]), if_pos h4]
  · intro lab g h h1 h2 h3 h4
    rw [build_label_some, if_neg (by simp [h]), if_neg (by simp [h1, h2]),
      if_neg (by simp [h3]), if_neg (by simp [h4])]
    exact ite_self _

/-- C4, witness: the placeholder template `CHEQUE ****` with a pipe-ridden,
padded capture receives the cleaned fragment in place of the
placeholder. -/
theorem spec_c4_witness :
    build_label (S "CHEQUE ****") (some (S " 12 | 34 ")) =
      replaceSub (S "****") (cleanFragment (S " 12 | 34 ")) (S "CHEQUE ****") :=
  spec_c4_build_label.1 (S "CHEQUE ****") (S " 12 | 34 ") (by decide)
